import Mathlib

set_option linter.unusedVariables false

/-!
Shallow embedding of the form-state controller in `src/hooks/useForm.ts`
(react-form-hook).  State maps (`values`, `errors`, `touched`) are modelled
as insertion-ordered association lists, mirroring JavaScript objects built
with spread-merge (`... prev` followed by one key assignment): an existing
key is replaced in place, a new key is appended, and a key assigned the
value `undefined` is still an own key reported by `Object.keys` — so error
maps carry `Option String` values, `none` standing for `undefined`.
Asynchronous code is sequentialized (the hook runs on one logical thread);
a rejected promise is an explicit `Option Thrown` component.  The external
validator libraries (yup, zod) appear only through their call/throw
interface; the thrown-value model records the JavaScript class facts the
code's `instanceof` dispatch depends on: yup's `ValidationError` and zod's
`ZodError` both extend `Error`, and `ZodError.message` is the serialized
issue list, distinct from any single issue's message.
-/

/-- A JavaScript value stored in a form field.  `vNum`/`vNan` model the
number type (`vNan` is the NaN sentinel), `vFile`/`vFiles` model a single
`File` reference resp. an array of them (references are opaque ids),
`vNull`/`vUndefined` model `null`/`undefined`. -/
inductive FieldValue where
  | vStr (s : String)
  | vNum (n : Int)
  | vNan
  | vBool (b : Bool)
  | vFile (f : Nat)
  | vFiles (fs : List Nat)
  | vNull
  | vUndefined
deriving DecidableEq

/-- A JavaScript object with field values: `values` / `initialValues`. -/
abbrev FormValues := List (String × FieldValue)

/-- The `errors` object.  A key mapped to `none` is an own key whose value
is `undefined` (as produced by a spread-merge of an `undefined` result). -/
abbrev FormErrors := List (String × Option String)

/-- The `touched` object. -/
abbrev FormTouched := List (String × Bool)

/-- Read a property: `o[k]`, `none` when the key is absent. -/
def getKey (o : List (String × α)) (k : String) : Option α :=
  match o with
  | [] => none
  | (k2, v) :: rest => if k2 = k then some v else getKey rest k

/-- The spread-merge `( ...o, [k]: v )` as an object: replace the first
binding of `k` in place, or append a fresh binding. -/
def setKey (o : List (String × α)) (k : String) (v : α) : List (String × α) :=
  match o with
  | [] => [(k, v)]
  | (k2, v2) :: rest => if k2 = k then (k, v) :: rest else (k2, v2) :: setKey rest k v

/-- `Object.keys(o)` — lists every own key, including keys whose value is
`undefined`. -/
def objKeys (o : List (String × α)) : List String :=
  o.map Prod.fst

/-- A structured zod issue: a path and a message. -/
structure ZodIssue where
  path : List String
  message : String
deriving DecidableEq

/-- A thrown JavaScript value as the catch clauses of `useForm.ts`
discriminate it.  Class facts of the real libraries: yup's
`ValidationError` extends `Error` (it carries a `message` and, for
whole-form validation, an `inner` list of (path, message) pairs); zod's
`ZodError` extends `Error` (it carries `issues` and its `message` property
is the serialized issue list, modelled here as a separate string field);
`jsError` is any other `Error`; `nonError` is a thrown value that is not
an `Error` instance at all. -/
inductive Thrown where
  | yupError (message : String) (inner : List (String × String))
  | zodError (issues : List ZodIssue) (message : String)
  | jsError (message : String)
  | nonError
deriving DecidableEq

/-- `e instanceof ValidationError` (yup). -/
def isValidationError : Thrown → Bool
  | .yupError _ _ => true
  | _ => false

/-- `e instanceof Error`.  `ValidationError` and `ZodError` both extend
`Error`, so only a thrown non-`Error` value fails this test. -/
def isError : Thrown → Bool
  | .nonError => false
  | _ => true

/-- `e instanceof ZodError`. -/
def isZodError : Thrown → Bool
  | .zodError _ _ => true
  | _ => false

/-- The `message` property of a thrown value. -/
def errMessage : Thrown → String
  | .yupError m _ => m
  | .zodError _ m => m
  | .jsError m => m
  | .nonError => "undefined"

/-- The `issues` list of a `ZodError` (empty for anything else). -/
def zodIssuesOf : Thrown → List ZodIssue
  | .zodError issues _ => issues
  | _ => []

/-- The `inner` list of a yup `ValidationError` (empty for anything else). -/
def yupInnerOf : Thrown → List (String × String)
  | .yupError _ inner => inner
  | _ => []

/-- `issue.path[0]` used as an object key: an empty path gives `undefined`,
which stringifies to the key `"undefined"`. -/
def headPathKey : List String → String
  | [] => "undefined"
  | p :: _ => p

/-- The configured validator, one of the three shapes the hook dispatches
on with `instanceof`: a yup `Schema` (with `validateAt` for one path and
`validate` with `abortEarly: false` for the whole bag), a `ZodSchema`
(with `parseAsync` on a whole bag), or a plain function from a value bag
to an error map.  Each call either succeeds or throws a `Thrown`. -/
inductive ValidationSchema where
  | yup (validateAt : String → FormValues → Except Thrown Unit)
        (validateAll : FormValues → Except Thrown Unit)
  | zod (parse : FormValues → Except Thrown Unit)
  | fn (f : FormValues → Except Thrown FormErrors)

/-- `validateField(field, value)` of `useForm.ts`.  Dispatch: a yup schema
gets `validateAt(field, ( [field]: value ))` — note the bag contains only
the overridden field; a zod schema gets `parseAsync(( [field]: value ))`,
likewise a singleton; a function validator is called on the merged bag and
a truthy message for the field is rethrown as `new Error(message)`.  The
catch clause tests `instanceof ValidationError || instanceof Error` first
(returning `error.message`), then `instanceof ZodError` (searching
`issues` for the field's path, with an empty-string message being falsy),
and finally falls back to the literal string `Invalid value`. -/
def validateField (schema : Option ValidationSchema) (values : FormValues)
    (field : String) (value : FieldValue) : Option String :=
  match schema with
  | none => none
  | some vs =>
    let attempt : Except Thrown Unit :=
      match vs with
      | .yup vAt _ => vAt field [(field, value)]
      | .zod parse => parse [(field, value)]
      | .fn f =>
        match f (setKey values field value) with
        | .ok errs =>
          match getKey errs field with
          | some (some msg) => if msg = "" then .ok () else .error (.jsError msg)
          | _ => .ok ()
        | .error t => .error t
    match attempt with
    | .ok _ => none
    | .error e =>
      if isValidationError e || isError e then some (errMessage e)
      else if isZodError e then
        some (match (zodIssuesOf e).find? (fun i => i.path.contains field) with
              | some i => if i.message = "" then "Invalid value" else i.message
              | none => "Invalid value")
      else some "Invalid value"

/-- `validateForm()` of `useForm.ts`: validate the whole current bag.  The
catch clause reduces a yup `ValidationError`'s `inner` list, or a
`ZodError`'s `issues` list (keyed by `issue.path[0]`), into an error map,
and turns any other thrown value into the empty map. -/
def validateForm (schema : Option ValidationSchema) (values : FormValues) :
    FormErrors :=
  match schema with
  | none => []
  | some vs =>
    let attempt : Except Thrown FormErrors :=
      match vs with
      | .yup _ vAll => (vAll values).map (fun _ => ([] : FormErrors))
      | .zod parse => (parse values).map (fun _ => ([] : FormErrors))
      | .fn f => f values
    match attempt with
    | .ok errs => errs
    | .error e =>
      if isValidationError e then
        (yupInnerOf e).foldl (fun acc pm => setKey acc pm.1 (some pm.2)) []
      else if isZodError e then
        (zodIssuesOf e).foldl (fun acc i => setKey acc (headPathKey i.path) (some i.message)) []
      else []

/-- The controller state held by the four `useState` cells. -/
structure FormState where
  values : FormValues
  errors : FormErrors
  touched : FormTouched
  isSubmitting : Bool
deriving DecidableEq

/-- A change event as the hook reads it: `e.target.name`, `e.target.value`,
`e.target.type`, and for file / checkbox inputs the `files` list
(`none` models a null `files` property) resp. the `checked` flag. -/
structure ChangeEvent where
  name : String
  value : String
  type : String
  files : Option (List Nat)
  checked : Bool
deriving DecidableEq

/-- Host model of `new Date(v).toISOString()` restricted to the date-only
strings the hook feeds it; no claim depends on the exact string. -/
def jsDateISO (s : String) : String :=
  s ++ "T00:00:00.000Z"

/-- Whether the host model treats a character list as numeric: an optional
leading minus sign followed by at least one decimal digit. -/
def isNumericList : List Char → Bool
  | [] => false
  | c :: rest =>
    if c = Char.ofNat 45 then !rest.isEmpty && rest.all Char.isDigit
    else (c :: rest).all Char.isDigit

/-- `isNumericList` on the characters of a string. -/
def isNumericString (s : String) : Bool :=
  isNumericList s.toList

/-- Digits-to-number accumulator for the `Number()` model. -/
def parseDigits (l : List Char) : Nat :=
  l.foldl (fun acc c => acc * 10 + (c.toNat - 48)) 0

/-- The `Number()` model on a character list: an optional-sign decimal
integer literal converts to its value, everything else to NaN. -/
def jsNumberList : List Char → FieldValue
  | [] => .vNan
  | c :: rest =>
    if c = Char.ofNat 45 then
      if !rest.isEmpty && rest.all Char.isDigit then .vNum (-(parseDigits rest : Int))
      else .vNan
    else
      if (c :: rest).all Char.isDigit then .vNum (parseDigits (c :: rest))
      else .vNan

/-- Host model of the JavaScript `Number()` conversion, restricted to
optional-sign decimal integer literals; every other string converts to
the NaN sentinel (never a thrown error).  Fractional, exponent and
whitespace forms are treated as non-numeric by the model. -/
def jsNumber (s : String) : FieldValue :=
  jsNumberList s.toList

/-- The value normalizer: the `switch (type)` of `handleChange`.
`file`: a one-element `files` list stores `files[0]`; any other present
`files` list (the zero-file case included) stores `Array.from(files)`;
a null `files` property stores `null`.  `checkbox`: the checked flag.
`date`: `null` for an empty raw string (falsy), else the ISO timestamp.
`number`: `null` for the empty raw string, else `Number(value)`.
Default: the raw string. -/
def normalizeChange (e : ChangeEvent) : FieldValue :=
  match e.type with
  | "file" =>
    match e.files with
    | some [f] => .vFile f
    | some fs => .vFiles fs
    | none => .vNull
  | "checkbox" => .vBool e.checked
  | "date" => if e.value = "" then .vNull else .vStr (jsDateISO e.value)
  | "number" => if e.value = "" then .vNull else jsNumber e.value
  | _ => .vStr e.value

/-- `handleChange(e)`: normalize, store the value, mark touched, and when
`validateOnChange` holds, merge the `validateField` result into `errors`
with a spread-merge — the result is written even when it is `undefined`.
`validateField` closes over the render-time `values`, i.e. the pre-change
bag. -/
def handleChange (schema : Option ValidationSchema) (validateOnChange : Bool)
    (s : FormState) (e : ChangeEvent) : FormState :=
  let fieldValue := normalizeChange e
  let s1 : FormState :=
    { s with values := setKey s.values e.name fieldValue,
             touched := setKey s.touched e.name true }
  if validateOnChange then
    { s1 with errors := setKey s1.errors e.name (validateField schema s.values e.name fieldValue) }
  else s1

/-- `o[k]` as a JavaScript expression: `undefined` when the key is absent. -/
def jsGet (o : FormValues) (k : String) : FieldValue :=
  (getKey o k).getD .vUndefined

/-- `handleBlur(e)`: mark touched and, when `validateOnBlur` holds,
validate the field's current stored value and spread-merge the result. -/
def handleBlur (schema : Option ValidationSchema) (validateOnBlur : Bool)
    (s : FormState) (name : String) : FormState :=
  let s1 : FormState := { s with touched := setKey s.touched name true }
  if validateOnBlur then
    { s1 with errors := setKey s1.errors name (validateField schema s.values name (jsGet s.values name)) }
  else s1

/-- `setFieldValue(field, value)`: store the value and, when
`validateOnChange` holds, validate (against the render-time `values`) and
spread-merge the result into `errors`. -/
def setFieldValue (schema : Option ValidationSchema) (validateOnChange : Bool)
    (s : FormState) (field : String) (value : FieldValue) : FormState :=
  let s1 : FormState := { s with values := setKey s.values field value }
  if validateOnChange then
    { s1 with errors := setKey s1.errors field (validateField schema s.values field value) }
  else s1

/-- `setFieldError(field, error)`. -/
def setFieldError (s : FormState) (field : String) (error : String) : FormState :=
  { s with errors := setKey s.errors field (some error) }

/-- `setFieldTouched(field, isTouched)`. -/
def setFieldTouched (s : FormState) (field : String) (isTouched : Bool) : FormState :=
  { s with touched := setKey s.touched field isTouched }

/-- `resetForm()`: restore `values` to the construction-time snapshot and
clear `errors`, `touched` and `isSubmitting`, whatever the prior state. -/
def resetForm (initialValues : FormValues) (_s : FormState) : FormState :=
  { values := initialValues, errors := [], touched := [], isSubmitting := false }

/-- The first two state writes of `handleSubmit`: raise `isSubmitting`,
then replace `errors` wholesale with the `validateForm()` result. -/
def submitAfterValidate (schema : Option ValidationSchema) (s : FormState) :
    FormState :=
  let s1 : FormState := { s with isSubmitting := true }
  { s1 with errors := validateForm schema s1.values }

/-- The touched write of `handleSubmit`: rebuild `touched` from scratch as
`Object.keys(initialValues).reduce((acc, key) => (( ...acc, [key]: true )), ( ))`. -/
def forceAllTouched (initialValues : FormValues) (s : FormState) : FormState :=
  { s with touched := (objKeys initialValues).foldl (fun acc k => setKey acc k true) [] }

/-- The caller-supplied `onSubmit` callback, sequentialized: it receives
the submitted values and the state at invocation time (through which the
`resetForm` / `setSubmitting` capabilities act), and returns the state it
leaves behind together with `some t` when it throws/rejects with `t`. -/
def OnSubmitCb :=
  FormValues → FormState → FormState × Option Thrown

/-- `handleSubmit(e)` after `preventDefault`: set `isSubmitting`, store the
`validateForm()` result, force-touch every declared field, invoke the
callback only when `Object.keys(validationErrors).length === 0`, and run
the trailing `setIsSubmitting(false)` — which, with no try/finally, is
skipped when the callback throws, the rejection propagating instead.
Returns the resulting state, the propagated thrown value if any, and the
list of value bags the callback was invoked with (the instrumented call
log, recorded at the single call site). -/
def handleSubmit (schema : Option ValidationSchema) (cb : OnSubmitCb)
    (initialValues : FormValues) (s : FormState) :
    FormState × Option Thrown × List FormValues :=
  let s2 := submitAfterValidate schema s
  let s3 := forceAllTouched initialValues s2
  if (objKeys s2.errors).length = 0 then
    match cb s3.values s3 with
    | (s4, none) => ({ s4 with isSubmitting := false }, none, [s3.values])
    | (s4, some t) => (s4, some t, [s3.values])
  else
    ({ s3 with isSubmitting := false }, none, [])

/-- Fixture: an at-path validator that always succeeds. -/
def okValidateAt : String → FormValues → Except Thrown Unit :=
  fun _ _ => .ok ()

/-- Fixture: a whole-bag validator call that always succeeds. -/
def okValidateAll : FormValues → Except Thrown Unit :=
  fun _ => .ok ()

/-- Fixture: an at-path validator with a cross-field rule — it fails with
a `ValidationError` exactly when the bag it is given contains a binding
for `b`. -/
def crossFieldAt : String → FormValues → Except Thrown Unit :=
  fun _ bag =>
    if bag.any (fun p => p.1 = "b") then .error (.yupError "saw b" []) else .ok ()

/-- Fixture: current values containing a binding for `b`. -/
def cexValues : FormValues :=
  [("b", FieldValue.vStr "x")]

/-- Fixture: an at-path validator that always fails with a required-field
`ValidationError`. -/
def requiredAt : String → FormValues → Except Thrown Unit :=
  fun _ _ => .error (.yupError "Username is required" [])

/-- Fixture: a zod parse that rejects with a `ZodError` holding one issue
for path `a` whose message differs from the error's own `message`
property. -/
def zodFailParse : FormValues → Except Thrown Unit :=
  fun _ => .error (.zodError [⟨["a"], "too short"⟩] "serialized issue list")

/-- Fixture: the declared fields at construction: one field `a`. -/
def cexInit : FormValues :=
  [("a", FieldValue.vStr "")]

/-- Fixture: a submit callback that rejects. -/
def throwingCb : OnSubmitCb :=
  fun _ s => (s, some (.jsError "network down"))

/-- Fixture: a submit callback that calls its `resetForm` capability and
returns normally — as the repository's example component does. -/
def resettingCb : OnSubmitCb :=
  fun _ s => (resetForm cexInit s, none)

/-- Fixture: a submit callback that does nothing and returns normally. -/
def noopCb : OnSubmitCb :=
  fun _ s => (s, none)

/-- Fixture: a fresh controller state over `cexInit`. -/
def startState : FormState :=
  { values := cexInit, errors := [], touched := [], isSubmitting := false }

/-- Fixture: a state carrying a stale error entry for `a` set earlier. -/
def staleState : FormState :=
  { values := [], errors := [("a", some "stale")], touched := [], isSubmitting := false }

/-- Writing a key and reading it back gives the written value. -/
theorem getKey_setKey_same (o : List (String × α)) (k : String) (v : α) :
    getKey (setKey o k v) k = some v := by
  induction o with
  | nil => simp [setKey, getKey]
  | cons p rest ih =>
    obtain ⟨k2, v2⟩ := p
    by_cases h : k2 = k
    · simp [setKey, h, getKey]
    · simp [setKey, h, getKey, ih]

/-- Writing one key leaves every other key's value unchanged. -/
theorem getKey_setKey_ne (o : List (String × α)) (k k2 : String) (v : α)
    (h : k ≠ k2) : getKey (setKey o k v) k2 = getKey o k2 := by
  induction o with
  | nil => simp [setKey, getKey, h]
  | cons p rest ih =>
    obtain ⟨k3, v3⟩ := p
    by_cases h3 : k3 = k
    · simp [setKey, h3, getKey, h]
    · simp [setKey, h3, getKey, ih]

/-- A key outside `Object.keys(o)` reads back as absent. -/
theorem getKey_eq_none_of_not_mem (o : List (String × α)) (k : String)
    (h : k ∉ objKeys o) : getKey o k = none := by
  induction o with
  | nil => rfl
  | cons p rest ih =>
    obtain ⟨k2, v2⟩ := p
    simp [objKeys] at h
    simp [getKey, Ne.symm h.1, ih (by simpa [objKeys] using h.2)]

/-- Folding `true`-writes over a key list makes every listed key (and every
key already mapped to `true`) read back `true`. -/
theorem getKey_foldl_touch (ks : List String) (acc : FormTouched) (k : String)
    (h : k ∈ ks ∨ getKey acc k = some true) :
    getKey (ks.foldl (fun a k2 => setKey a k2 true) acc) k = some true := by
  induction ks generalizing acc with
  | nil => simpa using h.resolve_left (by simp)
  | cons k2 ks ih =>
    simp only [List.foldl_cons]
    apply ih
    rcases h with h | h
    · rcases List.mem_cons.mp h with rfl | hm
      · exact Or.inr (getKey_setKey_same acc k true)
      · exact Or.inl hm
    · by_cases hk : k2 = k
      · subst hk
        exact Or.inr (getKey_setKey_same acc k2 true)
      · exact Or.inr (by rw [getKey_setKey_ne acc k2 k true hk]; exact h)

/-- Claim C1 counterexample: with no validator (whole-form validation
passes) and a callback that throws, `handleSubmit` has no try/finally, so
the trailing `setIsSubmitting(false)` never runs: the rejection propagates
and `isSubmitting` remains `true` after the attempt ends — refuting the
claim that the flag is reset on every exit path. -/
theorem handleSubmit_throwing_callback_sticks :
    (handleSubmit none throwingCb cexInit startState).2.1 = some (.jsError "network down")
    ∧ (handleSubmit none throwingCb cexInit startState).1.isSubmitting = true :=
  ⟨rfl, rfl⟩

/-- Claim C1 (amended): `isSubmitting` ends `false` on every path on which
no thrown value propagates out of `handleSubmit` — every
validation-failure path and every path where the callback returns
normally; only a throwing callback skips the final reset. -/
theorem handleSubmit_resets_isSubmitting_of_no_throw
    (schema : Option ValidationSchema) (cb : OnSubmitCb)
    (initialValues : FormValues) (s : FormState)
    (h : (handleSubmit schema cb initialValues s).2.1 = none) :
    (handleSubmit schema cb initialValues s).1.isSubmitting = false := by
  unfold handleSubmit at h ⊢
  by_cases hg : (objKeys (submitAfterValidate schema s).errors).length = 0
  · rcases hcb : cb (forceAllTouched initialValues (submitAfterValidate schema s)).values
        (forceAllTouched initialValues (submitAfterValidate schema s)) with ⟨s4, t⟩
    cases t <;> simp [hg, hcb] at h ⊢
  · simp [hg]

/-- Claim C1 witness: a concrete no-throw attempt on which the amended
theorem applies. -/
theorem handleSubmit_resets_isSubmitting_witness :
    (handleSubmit none noopCb cexInit startState).2.1 = none
    ∧ (handleSubmit none noopCb cexInit startState).1.isSubmitting = false :=
  ⟨rfl, handleSubmit_resets_isSubmitting_of_no_throw none noopCb cexInit startState rfl⟩

/-- Claim C2 counterexample: the yup branch of `validateField` passes only
the singleton bag to `validateAt`, not the current values merged with the
override.  With current values containing `b`, and a schema whose at-path
check fails (message "saw b") exactly when its bag contains `b`, at-path
validation of the merged bag fails — yet `validateField` reports no
message, because the bag it actually passes holds only the overridden
field. -/
theorem validateField_yup_merged_bag_cex :
    crossFieldAt "a" (setKey cexValues "a" (FieldValue.vStr "1"))
      = Except.error (Thrown.yupError "saw b" [])
    ∧ validateField (some (.yup crossFieldAt okValidateAll)) cexValues "a" (FieldValue.vStr "1")
      = none :=
  ⟨rfl, rfl⟩

/-- Claim C2 (amended): with an at-path (yup) validator, `validateField`
invokes at-path validation against the bag containing only the overridden
field — the current values are ignored entirely — returning no message on
success and the thrown `ValidationError`'s message string on failure. -/
theorem validateField_yup_singleton_bag
    (vAt : String → FormValues → Except Thrown Unit)
    (vAll : FormValues → Except Thrown Unit)
    (values values' : FormValues) (field : String) (value : FieldValue) :
    validateField (some (.yup vAt vAll)) values field value
      = validateField (some (.yup vAt vAll)) values' field value
    ∧ (vAt field [(field, value)] = Except.ok ()
        → validateField (some (.yup vAt vAll)) values field value = none)
    ∧ (∀ m inner, vAt field [(field, value)] = Except.error (Thrown.yupError m inner)
        → validateField (some (.yup vAt vAll)) values field value = some m) := by
  refine ⟨rfl, fun h => ?_, fun m inner h => ?_⟩
  · simp [validateField, h]
  · simp [validateField, h, isValidationError, errMessage]

/-- Claim C2 witness: a concrete failing at-path validation on which the
amended theorem applies. -/
theorem validateField_yup_singleton_bag_witness :
    requiredAt "username" [("username", FieldValue.vStr "")]
      = Except.error (Thrown.yupError "Username is required" [])
    ∧ validateField (some (.yup requiredAt okValidateAll)) [] "username" (FieldValue.vStr "")
      = some "Username is required" :=
  ⟨rfl, (validateField_yup_singleton_bag requiredAt okValidateAll [] [] "username"
      (FieldValue.vStr "")).2.2 "Username is required" [] rfl⟩

/-- Claim C3 counterexample: a `ZodError` extends `Error`, so the first
catch branch returns the `ZodError`'s own `message` property and the
issue-search branch never runs: although the thrown error carries an
issue for path `a` with message "too short", `validateField` returns the
error's serialized-list message instead. -/
theorem validateField_zod_own_message_cex :
    validateField (some (.zod zodFailParse)) [] "a" (FieldValue.vStr "x")
      = some "serialized issue list"
    ∧ (some "serialized issue list" : Option String) ≠ some "too short" :=
  ⟨rfl, by decide⟩

/-- Claim C3 (amended): with a whole-object (zod) validator, whatever the
parse throws, `validateField` returns some message string — no raw
exception escapes the adapter.  A thrown `ZodError` yields the error's
own `message` property (because `ZodError` extends `Error`, the
error-message branch fires before the issue search, which is dead for
real `ZodError`s), and a thrown non-`Error` value yields the generic
"Invalid value". -/
theorem validateField_zod_catch
    (parse : FormValues → Except Thrown Unit)
    (values : FormValues) (field : String) (value : FieldValue) (e : Thrown)
    (h : parse [(field, value)] = Except.error e) :
    (∃ m, validateField (some (.zod parse)) values field value = some m)
    ∧ (∀ issues msg, e = Thrown.zodError issues msg
        → validateField (some (.zod parse)) values field value = some msg)
    ∧ (e = Thrown.nonError
        → validateField (some (.zod parse)) values field value = some "Invalid value") := by
  refine ⟨?_, ?_, ?_⟩
  · cases e <;>
      simp [validateField, h, isValidationError, isError, isZodError, errMessage]
  · rintro issues msg rfl
    simp [validateField, h, isValidationError, isError, errMessage]
  · rintro rfl
    simp [validateField, h, isValidationError, isError, isZodError]

/-- Claim C3 witness: a concrete rejecting parse on which the amended
theorem applies. -/
theorem validateField_zod_catch_witness :
    zodFailParse [("a", FieldValue.vStr "x")]
      = Except.error (Thrown.zodError [⟨["a"], "too short"⟩] "serialized issue list")
    ∧ validateField (some (.zod zodFailParse)) [] "a" (FieldValue.vStr "x")
      = some "serialized issue list" :=
  ⟨rfl, (validateField_zod_catch zodFailParse [] "a" (FieldValue.vStr "x")
      (Thrown.zodError [⟨["a"], "too short"⟩] "serialized issue list") rfl).2.1
      [⟨["a"], "too short"⟩] "serialized issue list" rfl⟩

/-- Claim C4 counterexample: an empty `FileList` is a truthy object, so a
`file` change with zero files selected stores `Array.from(files)` — the
empty array — not `null` as the claim states. -/
theorem normalizeChange_file_zero_files_cex :
    normalizeChange { name := "p", value := "", type := "file", files := some [], checked := false }
      = FieldValue.vFiles []
    ∧ FieldValue.vFiles [] ≠ FieldValue.vNull :=
  ⟨rfl, by decide⟩

/-- Claim C4 (amended): for a `file` change, exactly one file stores that
single file reference; a present files list of any other length — the
zero-file case included — stores the ordered list of its file references
(so zero files stores the empty array); `null` is stored only when the
`files` property itself is null. -/
theorem normalizeChange_file (name value : String) (checked : Bool) :
    (∀ f, normalizeChange { name := name, value := value, type := "file", files := some [f], checked := checked }
        = FieldValue.vFile f)
    ∧ (∀ fs, fs.length ≠ 1
        → normalizeChange { name := name, value := value, type := "file", files := some fs, checked := checked }
          = FieldValue.vFiles fs)
    ∧ normalizeChange { name := name, value := value, type := "file", files := none, checked := checked }
        = FieldValue.vNull := by
  refine ⟨fun f => rfl, fun fs h => ?_, rfl⟩
  match fs with
  | [] => rfl
  | [f] => exact absurd rfl h
  | a :: b :: t => rfl

/-- Claim C4 witness: a concrete two-file list on which the amended
theorem applies. -/
theorem normalizeChange_file_witness :
    ([10, 20] : List Nat).length ≠ 1
    ∧ normalizeChange { name := "p", value := "", type := "file", files := some [10, 20], checked := false }
      = FieldValue.vFiles [10, 20] :=
  ⟨by decide, (normalizeChange_file "p" "" false).2.1 [10, 20] (by decide)⟩

/-- Claim C5 counterexample: with an always-passing validator and
`validateOnChange` enabled, a change to field `a` spread-merges the
successful (undefined) validation result — which inserts the key: the
errors object afterwards has own key `a` with value `undefined`
(reported by `Object.keys`), rather than no key as the claim states. -/
theorem errors_undefined_entry_cex :
    (handleChange (some (.yup okValidateAt okValidateAll)) true startState
        { name := "a", value := "x", type := "text", files := none, checked := false }).errors
      = [("a", none)]
    ∧ objKeys (handleChange (some (.yup okValidateAt okValidateAll)) true startState
        { name := "a", value := "x", type := "text", files := none, checked := false }).errors
      = ["a"] :=
  ⟨rfl, rfl⟩

/-- Claim C5 (amended): the error-map merge never deletes a key: when a
single-field validation succeeds, `handleChange` writes the field's key
with the explicit undefined value, so "no error" is represented by the
key being absent or being mapped to undefined — not by key deletion. -/
theorem handleChange_success_writes_undefined_entry
    (schema : Option ValidationSchema) (s : FormState) (e : ChangeEvent)
    (h : validateField schema s.values e.name (normalizeChange e) = none) :
    getKey (handleChange schema true s e).errors e.name = some none := by
  simp [handleChange, h, getKey_setKey_same]

/-- Claim C5 witness: a concrete successful validation on which the
amended theorem applies. -/
theorem handleChange_success_writes_undefined_entry_witness :
    validateField (some (.yup okValidateAt okValidateAll)) startState.values "a"
        (normalizeChange { name := "a", value := "x", type := "text", files := none, checked := false })
      = none
    ∧ getKey (handleChange (some (.yup okValidateAt okValidateAll)) true startState
        { name := "a", value := "x", type := "text", files := none, checked := false }).errors "a"
      = some none :=
  ⟨rfl, handleChange_success_writes_undefined_entry
      (some (.yup okValidateAt okValidateAll)) startState
      { name := "a", value := "x", type := "text", files := none, checked := false } rfl⟩

/-- Claim C6: the submit callback is invoked exactly when `validateForm()`
produced a map with zero keys, and then exactly once, with the
then-current values (the call log has exactly that one entry); when the
map is non-empty the callback is never invoked (empty call log), nothing
propagates, and `isSubmitting` ends `false`. -/
theorem handleSubmit_gate
    (schema : Option ValidationSchema) (cb : OnSubmitCb)
    (initialValues : FormValues) (s : FormState) :
    (handleSubmit schema cb initialValues s).2.2
      = (if (objKeys (validateForm schema s.values)).length = 0 then [s.values] else [])
    ∧ (if (objKeys (validateForm schema s.values)).length = 0 then True
       else (handleSubmit schema cb initialValues s).1.isSubmitting = false
            ∧ (handleSubmit schema cb initialValues s).2.1 = none) := by
  have hv : (forceAllTouched initialValues (submitAfterValidate schema s)).values
      = s.values := rfl
  unfold handleSubmit
  by_cases hg : (objKeys (validateForm schema s.values)).length = 0
  · have hg' : (objKeys (submitAfterValidate schema s).errors).length = 0 := hg
    rcases hcb : cb (forceAllTouched initialValues (submitAfterValidate schema s)).values
        (forceAllTouched initialValues (submitAfterValidate schema s)) with ⟨s4, t⟩
    rw [hv] at hcb
    cases t <;> simp [hg', hcb, hg, hv]
  · have hg' : ¬ (objKeys (submitAfterValidate schema s).errors).length = 0 := hg
    simp [hg', hg]

/-- Claim C7 counterexample: the callback receives the `resetForm`
capability; a callback that calls it and returns normally — as the
repository's own example component does — clears `touched` before the
attempt resolves: after this resolved submit, the declared field `a` has
no touched entry at all, refuting the claim that every declared field
ends with touched = true. -/
theorem handleSubmit_resetting_callback_clears_touched_cex :
    (handleSubmit none resettingCb cexInit startState).2.1 = none
    ∧ getKey (handleSubmit none resettingCb cexInit startState).1.touched "a" = none :=
  ⟨rfl, rfl⟩

/-- Claim C7 (amended): `handleSubmit` force-marks every declared field
(every key of the initial values) touched before the gate, so after any
submit attempt whose callback leaves the touched map unchanged — in
particular after every validation-failure attempt — every declared field
reads touched = true; a callback may undo this via its `resetForm`
capability. -/
theorem handleSubmit_touches_all_declared
    (schema : Option ValidationSchema) (cb : OnSubmitCb)
    (initialValues : FormValues) (s : FormState) (k : String)
    (hcb : ∀ v s', ((cb v s').1).touched = s'.touched)
    (hk : k ∈ objKeys initialValues) :
    getKey (handleSubmit schema cb initialValues s).1.touched k = some true := by
  have hall : getKey (forceAllTouched initialValues (submitAfterValidate schema s)).touched k
      = some true := by
    unfold forceAllTouched
    exact getKey_foldl_touch (objKeys initialValues) [] k (Or.inl hk)
  unfold handleSubmit
  by_cases hg : (objKeys (submitAfterValidate schema s).errors).length = 0
  · rcases hcb2 : cb (forceAllTouched initialValues (submitAfterValidate schema s)).values
        (forceAllTouched initialValues (submitAfterValidate schema s)) with ⟨s4, t⟩
    have h4 : s4.touched
        = (forceAllTouched initialValues (submitAfterValidate schema s)).touched := by
      have h5 := hcb (forceAllTouched initialValues (submitAfterValidate schema s)).values
        (forceAllTouched initialValues (submitAfterValidate schema s))
      rw [hcb2] at h5
      exact h5
    cases t <;> simp [hg, hcb2, h4, hall]
  · simp [hg, hall]

/-- Claim C7 witness: a concrete attempt with a touched-preserving
callback on which the amended theorem applies. -/
theorem handleSubmit_touches_all_declared_witness :
    (∀ v s', ((noopCb v s').1).touched = s'.touched)
    ∧ "a" ∈ objKeys cexInit
    ∧ getKey (handleSubmit none noopCb cexInit startState).1.touched "a" = some true :=
  ⟨fun v s' => rfl, by decide,
   handleSubmit_touches_all_declared none noopCb cexInit startState "a"
     (fun v s' => rfl) (by decide)⟩

/-- Claim C8: from any controller state, `resetForm()` restores `values`
to the exact construction-time snapshot, clears `errors` and `touched` to
the empty map, and sets `isSubmitting` to false. -/
theorem resetForm_restores_initial (initialValues : FormValues) (s : FormState) :
    (resetForm initialValues s).values = initialValues
    ∧ (resetForm initialValues s).errors = []
    ∧ (resetForm initialValues s).touched = []
    ∧ (resetForm initialValues s).isSubmitting = false :=
  ⟨rfl, rfl, rfl, rfl⟩

/-- Claim C9: a `number` change stores `null` for the empty raw string,
and otherwise the `Number()` conversion of the raw string; the conversion
is a total function that maps every non-numeric raw string to the NaN
sentinel rather than raising. -/
theorem normalizeChange_number
    (name : String) (files : Option (List Nat)) (checked : Bool)
    (raw : String) (h : raw ≠ "") :
    normalizeChange { name := name, value := "", type := "number", files := files, checked := checked }
      = FieldValue.vNull
    ∧ normalizeChange { name := name, value := raw, type := "number", files := files, checked := checked }
      = jsNumber raw
    ∧ (isNumericString raw = false → jsNumber raw = FieldValue.vNan) := by
  refine ⟨rfl, by simp [normalizeChange, h], fun hn => ?_⟩
  unfold isNumericString at hn
  unfold jsNumber
  generalize raw.toList = l at hn ⊢
  cases l with
  | nil => rfl
  | cons c rest =>
    simp only [isNumericList] at hn
    simp only [jsNumberList]
    by_cases hc : c = Char.ofNat 45
    · rw [if_pos hc] at hn ⊢
      simp [hn]
    · rw [if_neg hc] at hn ⊢
      simp [hn]

/-- Claim C9 witness: a concrete non-empty, non-numeric raw string on
which the theorem applies. -/
theorem normalizeChange_number_witness :
    ("abc" : String) ≠ ""
    ∧ normalizeChange { name := "n", value := "abc", type := "number", files := none, checked := false }
      = jsNumber "abc"
    ∧ jsNumber "abc" = FieldValue.vNan :=
  ⟨by decide,
   (normalizeChange_number "n" none false "abc" (by decide)).2.1,
   (normalizeChange_number "n" none false "abc" (by decide)).2.2 (by decide)⟩

/-- Claim C10: the validation step of a submit attempt replaces `errors`
wholesale with the `validateForm()` result: immediately after that step
`errors` is exactly the returned map, and any earlier entry for a field
the current whole-form validation does not report reads back as absent. -/
theorem submit_replaces_errors_wholesale
    (schema : Option ValidationSchema) (s : FormState) (k : String)
    (hk : k ∉ objKeys (validateForm schema s.values)) :
    (submitAfterValidate schema s).errors = validateForm schema s.values
    ∧ getKey (submitAfterValidate schema s).errors k = none :=
  ⟨rfl, getKey_eq_none_of_not_mem (validateForm schema s.values) k hk⟩

/-- Claim C10 witness: a stale error entry for `a` is gone after the
validation step of a submit attempt with no validator configured. -/
theorem submit_replaces_errors_wholesale_witness :
    "a" ∉ objKeys (validateForm none staleState.values)
    ∧ getKey (submitAfterValidate none staleState).errors "a" = none :=
  ⟨by decide, (submit_replaces_errors_wholesale none staleState "a" (by decide)).2⟩
